import Mathlib

set_option maxHeartbeats 1000000

/-!
Shallow embedding of the VPCEndpoint controller
(`pkg/controller/ec2/vpcendpoint/setup.go`): the lifecycle hooks
(`preCreate`, `postCreate`, `postObserve`, `filterList`), the diff check
`isUpToDate` with its helper `listCompareStringPtrIsSame`, and the JSON
comparison they delegate to (`github.com/nsf/jsondiff.Compare` over Go
`encoding/json` decoding).

Go pointers to strings (`*string`) become `Option String`; `aws.StringValue`
and `awsclients.StringValue` become `stringValue` (nil dereferences to "").
Functions that can panic (indexing `VpcEndpoints[0]` on an empty slice,
dereferencing a nil `CreationTimestamp`) return `Option`, with `none`
standing for the panic.
-/

namespace ProviderAWS

/-- Go errors: `nil` is `none`, a non-nil error is `some` message. -/
abbrev GoError := String

/-- Go `aws.StringValue` / `awsclients.StringValue`: dereference a `*string`,
yielding `""` for `nil`. -/
def stringValue : Option String → String
  | some s => s
  | none => ""

/-- Go `ec2.SecurityGroupIdentifier` (the fields used by the controller). -/
structure SecurityGroupIdentifier where
  groupId : Option String := none
  groupName : Option String := none

/-- Go `ec2.DnsEntry`. -/
structure DnsEntry where
  dnsName : Option String := none
  hostedZoneId : Option String := none

/-- Go `ec2.VpcEndpoint` (the fields read by the controller).
`creationTimestamp` models the `*time.Time` pointer as an abstract instant. -/
structure VpcEndpoint where
  vpcEndpointId : Option String := none
  state : Option String := none
  subnetIds : List (Option String) := []
  routeTableIds : List (Option String) := []
  groups : List SecurityGroupIdentifier := []
  policyDocument : Option String := none
  dnsEntries : List DnsEntry := []
  creationTimestamp : Option Nat := none

/-- Go `ec2.DescribeVpcEndpointsOutput`. -/
structure DescribeVpcEndpointsOutput where
  vpcEndpoints : List VpcEndpoint := []

/-- Go `ec2.CreateVpcEndpointOutput`. -/
structure CreateVpcEndpointOutput where
  vpcEndpoint : Option VpcEndpoint := none

/-- Go `ec2.Tag`. -/
structure Tag where
  key : Option String := none
  value : Option String := none

/-- Go `ec2.TagSpecification`. -/
structure TagSpecification where
  resourceType : Option String := none
  tags : List Tag := []

/-- Go `ec2.CreateVpcEndpointInput` (the fields touched by `preCreate`).
The three identifier slices are `Option` so that a nil slice (absent field)
is distinguished from an empty one, which is what `preCreate` manipulates. -/
structure CreateVpcEndpointInput where
  securityGroupIds : Option (List (Option String)) := none
  routeTableIds : Option (List (Option String)) := none
  subnetIds : Option (List (Option String)) := none
  tagSpecifications : List TagSpecification := []

/-- `svcapitypes.VPCEndpointParameters` (`cr.Spec.ForProvider`): the declared
state read by the hooks. Go `[]*string` becomes a list; a nil slice and an
empty slice both have length zero, which is the only property the code uses. -/
structure VPCEndpointParameters where
  subnetIDs : List (Option String) := []
  routeTableIDs : List (Option String) := []
  securityGroupIDs : List (Option String) := []
  policyDocument : Option String := none

/-- Crossplane readiness condition types set by `postObserve`
(`xpv1.Available / Creating / Unavailable / Deleting`). -/
inductive ConditionType where
  | available
  | creating
  | deleting
  | unavailable
deriving DecidableEq, Repr

/-- `svcapitypes.DNSEntry` as built by `generateVPCEndpointSDK`. -/
structure DNSEntrySDK where
  dnsName : Option String := none
  hostedZoneID : Option String := none

/-- `svcapitypes.VPCEndpoint_SDK` as built by `generateVPCEndpointSDK`:
the status mirror of the observed endpoint. -/
structure VPCEndpointSDK where
  creationTimestamp : Nat
  dnsEntries : List DNSEntrySDK := []
  state : Option String := none

/-- The managed resource (`svcapitypes.VPCEndpoint`): declared spec, the
`crossplane.io/external-name` annotation (`""` when unset, as
`meta.GetExternalName` reports), the current readiness condition
(`SetConditions` is most-recent-wins, so one slot suffices), and the
`Status.AtProvider.VPCEndpoint` mirror. -/
structure VPCEndpointCR where
  forProvider : VPCEndpointParameters := {}
  externalName : String := ""
  statusCondition : Option ConditionType := none
  statusAtProvider : Option VPCEndpointSDK := none

/-- Go `meta.GetExternalName`. -/
def getExternalName (cr : VPCEndpointCR) : String :=
  cr.externalName

/-- Go `meta.SetExternalName`. -/
def setExternalName (cr : VPCEndpointCR) (s : String) : VPCEndpointCR :=
  { cr with externalName := s }

/-- `managed.ExternalObservation` (the field the hooks touch). -/
structure ExternalObservation where
  connectionDetails : List (String × String) := []

/-- `managed.ExternalCreation` (the field the hooks touch). -/
structure ExternalCreation where
  externalNameAssigned : Bool := false

/-- Crossplane `xpv1.ResourceCredentialsSecretEndpointKey`. -/
def resourceCredentialsSecretEndpointKey : String := "endpoint"

/-! ## JSON values and the `encoding/json` decoder

`jsondiff.Compare` decodes both byte slices with `json.Decoder.UseNumber`,
so numbers keep their literal text (`json.Number`, compared literally) and
objects become Go maps: key-unordered, a repeated key keeping its last
value.  `jsondiff` then walks the maps with their keys sorted
(`sort.Strings`), so an object is modelled as a key-sorted, duplicate-free
association list built by insertion during parsing. -/

mutual

/-- A decoded JSON value (`interface\x7b\x7d` after `json.Decode` with
`UseNumber`).  Arrays and objects carry their own list types so that all
recursions below are structural and kernel-reducible. -/
inductive JsonValue where
  | null : JsonValue
  | bool (b : Bool) : JsonValue
  | num (lit : String) : JsonValue
  | str (s : String) : JsonValue
  | arr (elems : JsonList) : JsonValue
  | obj (fields : JsonFields) : JsonValue

/-- Elements of a JSON array, in order. -/
inductive JsonList where
  | nil : JsonList
  | cons (hd : JsonValue) (tl : JsonList) : JsonList

/-- Members of a JSON object, kept sorted by key and duplicate-free. -/
inductive JsonFields where
  | nil : JsonFields
  | cons (key : String) (val : JsonValue) (tl : JsonFields) : JsonFields

end

/-- Build a `JsonList` from an ordinary list of values. -/
def listToJsonList : List JsonValue → JsonList
  | [] => JsonList.nil
  | x :: xs => JsonList.cons x (listToJsonList xs)

/-- Build a `JsonFields` from an ordinary association list. -/
def fieldsToJsonFields : List (String × JsonValue) → JsonFields
  | [] => JsonFields.nil
  | (k, v) :: xs => JsonFields.cons k v (fieldsToJsonFields xs)

/-- The `"` character, kept out of character-literal syntax. -/
def quoteChar : Char := Char.ofNat 34

/-- The `\` character. -/
def backslashChar : Char := Char.ofNat 92

/-- The `\x7b` character. -/
def lbraceChar : Char := Char.ofNat 123

/-- The `\x7d` character. -/
def rbraceChar : Char := Char.ofNat 125

/-- JSON insignificant whitespace, as accepted by the Go scanner. -/
def isJsonWs (c : Char) : Bool :=
  c = ' ' || c = Char.ofNat 9 || c = Char.ofNat 10 || c = Char.ofNat 13

/-- Drop leading JSON whitespace. -/
def skipWs : List Char → List Char
  | [] => []
  | c :: cs => if isJsonWs c then skipWs cs else c :: cs

/-- Value of a hexadecimal digit, for `\uXXXX` escapes. -/
def hexDigitVal (c : Char) : Option Nat :=
  if c.isDigit then some (c.toNat - 48)
  else if 97 ≤ c.toNat ∧ c.toNat ≤ 102 then some (c.toNat - 87)
  else if 65 ≤ c.toNat ∧ c.toNat ≤ 70 then some (c.toNat - 55)
  else none

/-- Scan the body of a JSON string after the opening quote, handling the
escapes the Go decoder accepts and rejecting raw control characters.
`\uXXXX` escapes follow Go's `unquoteBytes`: a high surrogate followed by
a `\uYYYY` low surrogate combines into one code point (consuming both
escapes); any other surrogate code unit becomes U+FFFD, with only the
first escape consumed.  Returns the decoded string and the unconsumed
input.  The fuel is only a totality device: every step consumes at least
one input character, so the `length + 1` supplied at the call sites never
runs out before the input does. -/
def parseStringAux : Nat → List Char → List Char → Option (String × List Char)
  | 0, _, _ => none
  | Nat.succ fuel, acc, cs =>
    match cs with
    | [] => none
    | c :: rest =>
      if c = quoteChar then some (String.mk acc.reverse, rest)
      else if c = backslashChar then
        match rest with
        | [] => none
        | e :: rest2 =>
          if e = quoteChar then parseStringAux fuel (quoteChar :: acc) rest2
          else if e = backslashChar then parseStringAux fuel (backslashChar :: acc) rest2
          else if e = '/' then parseStringAux fuel ('/' :: acc) rest2
          else if e = 'b' then parseStringAux fuel (Char.ofNat 8 :: acc) rest2
          else if e = 'f' then parseStringAux fuel (Char.ofNat 12 :: acc) rest2
          else if e = 'n' then parseStringAux fuel (Char.ofNat 10 :: acc) rest2
          else if e = 'r' then parseStringAux fuel (Char.ofNat 13 :: acc) rest2
          else if e = 't' then parseStringAux fuel (Char.ofNat 9 :: acc) rest2
          else if e = 'u' then
            match rest2 with
            | h1 :: h2 :: h3 :: h4 :: rest3 =>
              match hexDigitVal h1, hexDigitVal h2, hexDigitVal h3, hexDigitVal h4 with
              | some a, some b, some c2, some d =>
                if 0xD800 ≤ ((a * 16 + b) * 16 + c2) * 16 + d
                    ∧ ((a * 16 + b) * 16 + c2) * 16 + d < 0xE000 then
                  match rest3 with
                  | e2 :: u2 :: g1 :: g2 :: g3 :: g4 :: rest4 =>
                    if e2 = backslashChar ∧ u2 = 'u' then
                      match hexDigitVal g1, hexDigitVal g2, hexDigitVal g3, hexDigitVal g4 with
                      | some a2, some b2, some c3, some d2 =>
                        if ((a * 16 + b) * 16 + c2) * 16 + d < 0xDC00
                            ∧ 0xDC00 ≤ ((a2 * 16 + b2) * 16 + c3) * 16 + d2
                            ∧ ((a2 * 16 + b2) * 16 + c3) * 16 + d2 < 0xE000 then
                          parseStringAux fuel
                            (Char.ofNat (0x10000
                              + (((a * 16 + b) * 16 + c2) * 16 + d - 0xD800) * 0x400
                              + (((a2 * 16 + b2) * 16 + c3) * 16 + d2 - 0xDC00)) :: acc) rest4
                        else
                          parseStringAux fuel (Char.ofNat 0xFFFD :: acc)
                            (e2 :: u2 :: g1 :: g2 :: g3 :: g4 :: rest4)
                      | _, _, _, _ =>
                        parseStringAux fuel (Char.ofNat 0xFFFD :: acc)
                          (e2 :: u2 :: g1 :: g2 :: g3 :: g4 :: rest4)
                    else
                      parseStringAux fuel (Char.ofNat 0xFFFD :: acc)
                        (e2 :: u2 :: g1 :: g2 :: g3 :: g4 :: rest4)
                  | _ => parseStringAux fuel (Char.ofNat 0xFFFD :: acc) rest3
                else
                  parseStringAux fuel (Char.ofNat (((a * 16 + b) * 16 + c2) * 16 + d) :: acc) rest3
              | _, _, _, _ => none
            | _ => none
          else none
      else if c.toNat < 32 then none
      else parseStringAux fuel (c :: acc) rest

/-- Longest leading run of decimal digits. -/
def takeDigits : List Char → List Char × List Char
  | [] => ([], [])
  | c :: cs =>
    if c.isDigit then
      let p := takeDigits cs
      (c :: p.1, p.2)
    else ([], c :: cs)

/-- Exponent and terminator of a JSON number literal; `acc` already holds the
integer (and fraction) part.  The literal is kept verbatim, as
`json.Number` does. -/
def parseNumExp (acc : List Char) (cs : List Char) : Option (String × List Char) :=
  match cs with
  | c :: rest =>
    if c = 'e' ∨ c = 'E' then
      let signed : List Char × List Char :=
        match rest with
        | '+' :: r => (['+'], r)
        | '-' :: r => (['-'], r)
        | _ => ([], rest)
      match takeDigits signed.2 with
      | ([], _) => none
      | (d, r) => some (String.mk (acc ++ c :: (signed.1 ++ d)), r)
    else some (String.mk acc, c :: rest)
  | [] => some (String.mk acc, [])

/-- Optional fraction part of a JSON number literal. -/
def parseNumFrac (acc : List Char) (cs : List Char) : Option (String × List Char) :=
  match cs with
  | '.' :: rest =>
    match takeDigits rest with
    | ([], _) => none
    | (d, r) => parseNumExp (acc ++ '.' :: d) r
  | _ => parseNumExp acc cs

/-- A JSON number literal per RFC 8259 (`-?(0|[1-9][0-9]*)(\.[0-9]+)?([eE][+-]?[0-9]+)?`),
returned as its literal text. -/
def parseNumber (cs : List Char) : Option (String × List Char) :=
  let signed : List Char × List Char :=
    match cs with
    | '-' :: rest => (['-'], rest)
    | _ => ([], cs)
  match signed.2 with
  | [] => none
  | c :: rest =>
    if c = '0' then parseNumFrac (signed.1 ++ ['0']) rest
    else if c.isDigit then
      let p := takeDigits rest
      parseNumFrac (signed.1 ++ c :: p.1) p.2
    else none

/-- Lexicographic order on character lists by code point, which for UTF-8
encoded text agrees with Go's byte-wise string order (`sort.Strings`). -/
def charListLt : List Char → List Char → Bool
  | [], [] => false
  | [], _ :: _ => true
  | _ :: _, [] => false
  | a :: as, b :: bs =>
    if a.toNat < b.toNat then true
    else if b.toNat < a.toNat then false
    else charListLt as bs

/-- Go's string order (`<` on strings, used by `sort.Strings`). -/
def stringLt (a b : String) : Bool :=
  charListLt a.data b.data

/-- Insert a field into a key-sorted association list, replacing an existing
binding of the same key (Go map semantics: last duplicate wins; `jsondiff`
then visits keys in `sort.Strings` order). -/
def insertField (k : String) (v : JsonValue) :
    List (String × JsonValue) → List (String × JsonValue)
  | [] => [(k, v)]
  | (k2, v2) :: rest =>
    if stringLt k k2 then (k, v) :: (k2, v2) :: rest
    else if k = k2 then (k, v) :: rest
    else (k2, v2) :: insertField k v rest

/-- The Go scanner's `maxNestingDepth`: arrays and objects may nest at
most this deep; one level beyond is a syntax error. -/
def maxNestingDepth : Nat := 10000

mutual

/-- One JSON value.  `depth` counts the enclosing arrays and objects, as
the Go scanner's parse stack does, and entering a new array or object
beyond `maxNestingDepth` fails.  `fuel` is only a totality device: every
recursive call decreases it by one, at most two consecutive calls consume
no input character (`parseArray → parseElems → parseValue` and
`parseObject → parseFields → parseValue`, whose predecessors consumed `[`,
`\x7b` or a member key), so `parseJson`'s budget of three units per input
character never runs out before the input does. -/
def parseValue : Nat → Nat → List Char → Option (JsonValue × List Char)
  | 0, _, _ => none
  | Nat.succ fuel, depth, cs =>
    match skipWs cs with
    | [] => none
    | 'n' :: 'u' :: 'l' :: 'l' :: rest => some (JsonValue.null, rest)
    | 't' :: 'r' :: 'u' :: 'e' :: rest => some (JsonValue.bool true, rest)
    | 'f' :: 'a' :: 'l' :: 's' :: 'e' :: rest => some (JsonValue.bool false, rest)
    | c :: rest =>
      if c = quoteChar then
        match parseStringAux (rest.length + 1) [] rest with
        | some (s, r) => some (JsonValue.str s, r)
        | none => none
      else if c = lbraceChar then
        if maxNestingDepth < depth + 1 then none
        else parseObject fuel (depth + 1) (skipWs rest)
      else if c = '[' then
        if maxNestingDepth < depth + 1 then none
        else parseArray fuel (depth + 1) (skipWs rest)
      else if c = '-' ∨ c.isDigit then
        match parseNumber (c :: rest) with
        | some (lit, r) => some (JsonValue.num lit, r)
        | none => none
      else none
termination_by structural fuel => fuel

/-- Array tail after `[` (whitespace already skipped). -/
def parseArray : Nat → Nat → List Char → Option (JsonValue × List Char)
  | 0, _, _ => none
  | Nat.succ fuel, depth, cs =>
    match cs with
    | ']' :: rest => some (JsonValue.arr JsonList.nil, rest)
    | _ => parseElems fuel depth cs []
termination_by structural fuel => fuel

/-- Comma-separated array elements up to `]`. -/
def parseElems : Nat → Nat → List Char → List JsonValue → Option (JsonValue × List Char)
  | 0, _, _, _ => none
  | Nat.succ fuel, depth, cs, acc =>
    match parseValue fuel depth cs with
    | none => none
    | some (v, rest) =>
      match skipWs rest with
      | ',' :: rest2 => parseElems fuel depth rest2 (v :: acc)
      | ']' :: rest2 => some (JsonValue.arr (listToJsonList (v :: acc).reverse), rest2)
      | _ => none
termination_by structural fuel => fuel

/-- Object tail after `\x7b` (whitespace already skipped). -/
def parseObject : Nat → Nat → List Char → Option (JsonValue × List Char)
  | 0, _, _ => none
  | Nat.succ fuel, depth, cs =>
    match cs with
    | c :: rest =>
      if c = rbraceChar then some (JsonValue.obj JsonFields.nil, rest)
      else parseFields fuel depth (c :: rest) []
    | [] => none
termination_by structural fuel => fuel

/-- Comma-separated `"key": value` members up to `\x7d`. -/
def parseFields : Nat → Nat → List Char → List (String × JsonValue) →
    Option (JsonValue × List Char)
  | 0, _, _, _ => none
  | Nat.succ fuel, depth, cs, acc =>
    match skipWs cs with
    | c :: rest =>
      if c = quoteChar then
        match parseStringAux (rest.length + 1) [] rest with
        | none => none
        | some (k, rest2) =>
          match skipWs rest2 with
          | ':' :: rest3 =>
            match parseValue fuel depth rest3 with
            | none => none
            | some (v, rest4) =>
              match skipWs rest4 with
              | ',' :: rest5 => parseFields fuel depth rest5 (insertField k v acc)
              | c2 :: rest5 =>
                if c2 = rbraceChar then
                  some (JsonValue.obj (fieldsToJsonFields (insertField k v acc)), rest5)
                else none
              | [] => none
          | _ => none
      else none
    | [] => none
termination_by structural fuel => fuel

end

/-- Go `json.Decoder.Decode` into `interface\x7b\x7d`: skip leading
whitespace and decode one value (a stream decoder does not require the
input to be exhausted).  `none` is a decode error — the "invalid json"
outcome in `jsondiff`.  The fuel `3 * s.length + 3` always outlasts the
input: along any chain of recursive calls each call consumes one unit,
runs of calls that consume no input character never exceed two, and the
character spans consumed along a chain are disjoint, so a chain is at
most `3 * s.length + 2` calls long. -/
def parseJson (s : String) : Option JsonValue :=
  match parseValue (3 * s.length + 3) 0 s.data with
  | some (v, _) => some v
  | none => none

/-! ## `nsf/jsondiff` -/

/-- `jsondiff.Difference`. -/
inductive Difference where
  | fullMatch
  | supersetMatch
  | noMatch
  | firstArgIsInvalidJson
  | secondArgIsInvalidJson
  | bothArgsAreInvalidJson
deriving DecidableEq, Repr, BEq

/-- Severity order used by `context.result`: `FullMatch` is overridden by
`SupersetMatch`, which is overridden by `NoMatch`. -/
def diffRank : Difference → Nat
  | Difference.fullMatch => 0
  | Difference.supersetMatch => 1
  | _ => 2

/-- Combine two sub-results, keeping the more severe one (the accumulator
logic of `context.result`). -/
def dmax (a b : Difference) : Difference :=
  if diffRank a < diffRank b then b else a

mutual

/-- `context.printDiff` of `nsf/jsondiff`, restricted to its verdict: walk
two decoded values; differing kinds or scalar values give `NoMatch`,
content present only in the first argument gives `SupersetMatch`, content
present only in the second gives `NoMatch`, and sub-results combine by
severity.  Numbers compare by literal text (`json.Number`). -/
def printDiff : JsonValue → JsonValue → Difference
  | JsonValue.null, JsonValue.null => Difference.fullMatch
  | JsonValue.bool x, JsonValue.bool y =>
    if x = y then Difference.fullMatch else Difference.noMatch
  | JsonValue.num x, JsonValue.num y =>
    if x = y then Difference.fullMatch else Difference.noMatch
  | JsonValue.str x, JsonValue.str y =>
    if x = y then Difference.fullMatch else Difference.noMatch
  | JsonValue.arr xs, JsonValue.arr ys => diffArr xs ys
  | JsonValue.obj xs, JsonValue.obj ys => diffObj xs ys
  | _, _ => Difference.noMatch

/-- Array walk: pointwise diff; a longer first array is `SupersetMatch`, a
longer second array is `NoMatch`. -/
def diffArr : JsonList → JsonList → Difference
  | JsonList.nil, JsonList.nil => Difference.fullMatch
  | JsonList.cons _ xs, JsonList.nil => dmax Difference.supersetMatch (diffArr xs JsonList.nil)
  | JsonList.nil, JsonList.cons _ _ => Difference.noMatch
  | JsonList.cons x xs, JsonList.cons y ys => dmax (printDiff x y) (diffArr xs ys)

/-- Object walk over key-sorted member lists: shared keys diff recursively,
a key only in the first argument is `SupersetMatch`, a key only in the
second argument is `NoMatch` (which no later finding can undo). -/
def diffObj : JsonFields → JsonFields → Difference
  | JsonFields.nil, JsonFields.nil => Difference.fullMatch
  | JsonFields.cons _ _ xs, JsonFields.nil =>
    dmax Difference.supersetMatch (diffObj xs JsonFields.nil)
  | JsonFields.nil, JsonFields.cons _ _ _ => Difference.noMatch
  | JsonFields.cons k1 v1 xs, JsonFields.cons k2 v2 ys =>
    if k1 = k2 then dmax (printDiff v1 v2) (diffObj xs ys)
    else if stringLt k1 k2 then
      dmax Difference.supersetMatch (diffObj xs (JsonFields.cons k2 v2 ys))
    else Difference.noMatch

end

/-- `jsondiff.Compare` after both decodes: the invalid-json outcomes, else
the walk. -/
def compareParsed : Option JsonValue → Option JsonValue → Difference
  | none, none => Difference.bothArgsAreInvalidJson
  | none, some _ => Difference.firstArgIsInvalidJson
  | some _, none => Difference.secondArgIsInvalidJson
  | some va, some vb => printDiff va vb

/-- `jsondiffCompare(a, b)` models `jsondiff.Compare([]byte(a), []byte(b),
&jsondiff.Options\x7b\x7d)`, verdict component.  The Go call also returns a
textual diff, which `isUpToDate` discards. -/
def jsondiffCompare (a b : String) : Difference :=
  compareParsed (parseJson a) (parseJson b)

/-! ## The controller hooks (`pkg/controller/ec2/vpcendpoint/setup.go`) -/

/-- `listCompareStringPtrIsSame(listA, listB)`: false when the lengths
differ, otherwise the labelled double loop checks that every value of
`listA` occurs (by `StringValue`) somewhere in `listB`.  The source
documents, but does not enforce, that both lists hold distinct values. -/
def listCompareStringPtrIsSame (listA listB : List (Option String)) : Bool :=
  if listA.length ≠ listB.length then false
  else listA.all fun elemA => listB.any fun elemB => stringValue elemA == stringValue elemB

/-- The controller's literal default policy string (including its one
interior space), compared against the observed policy when none is
declared. -/
def defaultVPCEndpointPolicy : String :=
  "\x7b\"Statement\":[\x7b\"Action\":\"*\",\"Effect\": \"Allow\",\"Principal\":\"*\",\"Resource\":\"*\"\x7d]\x7d"

/-- `isUpToDate(cr, obj)`: checks subnets, route tables, security groups
and the policy document of `obj.VpcEndpoints[0]` against the declared
spec, short-circuiting to `(false, nil)` on the first mismatch.  `none`
models the panic when the describe output holds no endpoint. -/
def isUpToDate (cr : VPCEndpointCR) (obj : DescribeVpcEndpointsOutput) :
    Option (Bool × Option GoError) :=
  match obj.vpcEndpoints with
  | [] => none
  | e :: _ =>
    if listCompareStringPtrIsSame e.subnetIds cr.forProvider.subnetIDs = false then
      some (false, none)
    else if listCompareStringPtrIsSame e.routeTableIds cr.forProvider.routeTableIDs = false then
      some (false, none)
    else if e.groups.length ≠ cr.forProvider.securityGroupIDs.length then
      some (false, none)
    else if (cr.forProvider.securityGroupIDs.all fun declaredSG =>
        e.groups.any fun upstreamSG =>
          stringValue declaredSG == stringValue upstreamSG.groupId) = false then
      some (false, none)
    else if stringValue cr.forProvider.policyDocument = "" then
      some ((jsondiffCompare (stringValue e.policyDocument) defaultVPCEndpointPolicy
               == Difference.fullMatch
             || jsondiffCompare (stringValue e.policyDocument) defaultVPCEndpointPolicy
               == Difference.supersetMatch), none)
    else
      some ((jsondiffCompare (stringValue e.policyDocument)
               (stringValue cr.forProvider.policyDocument) == Difference.fullMatch), none)

/-- `preCreate(ctx, cr, obj)`: clear the three identifier slices of the
create request when the corresponding declared list is nil or empty
(`cr.X == nil || len(cr.X) == 0`, i.e. length zero), then append a
`vpc-endpoint` tag specification holding a `Name` tag whose value is the
external name.  Always returns a nil error. -/
def preCreate (cr : VPCEndpointCR) (obj : CreateVpcEndpointInput) :
    CreateVpcEndpointInput × Option GoError :=
  let obj1 :=
    if cr.forProvider.securityGroupIDs.length = 0 then { obj with securityGroupIds := none }
    else obj
  let obj2 :=
    if cr.forProvider.routeTableIDs.length = 0 then { obj1 with routeTableIds := none }
    else obj1
  let obj3 :=
    if cr.forProvider.subnetIDs.length = 0 then { obj2 with subnetIds := none }
    else obj2
  ({ obj3 with
      tagSpecifications := obj3.tagSpecifications ++
        [{ resourceType := some ("vpc-endpoint"),
           tags := [{ key := some ("Name"), value := some (getExternalName cr) }] }] },
   none)

/-- `postCreate(ctx, cr, obj, cre, err)`: on an incoming error or a nil
`obj.VpcEndpoint` payload, return the zero `ExternalCreation` and the
incoming error, leaving `cr` untouched; otherwise set the created
endpoint's identifier as the external name and mark the assignment. -/
def postCreate (cr : VPCEndpointCR) (obj : CreateVpcEndpointOutput)
    (cre : ExternalCreation) (err : Option GoError) :
    ExternalCreation × VPCEndpointCR × Option GoError :=
  match err with
  | some msg => ({ externalNameAssigned := false }, cr, some msg)
  | none =>
    match obj.vpcEndpoint with
    | none => ({ externalNameAssigned := false }, cr, none)
    | some v =>
      ({ cre with externalNameAssigned := true },
       setExternalName cr (stringValue v.vpcEndpointId),
       none)

/-- `generateVPCEndpointSDK(vpcEndpoint)`: build the status mirror.  The Go
code dereferences `vpcEndpoint.CreationTimestamp`, so a nil timestamp is a
panic, modelled as `none`. -/
def generateVPCEndpointSDK (v : VpcEndpoint) : Option VPCEndpointSDK :=
  match v.creationTimestamp with
  | none => none
  | some t =>
    some { creationTimestamp := t,
           dnsEntries := v.dnsEntries.map fun d =>
             { dnsName := d.dnsName, hostedZoneID := d.hostedZoneId },
           state := v.state }

/-- `postObserve(ctx, cr, resp, obs, err)`: on an incoming error, return an
empty observation and the error unchanged.  Otherwise read
`resp.VpcEndpoints[0]` (`none` models the index panic on an empty slice):
set the connection details to the first DNS entry's name when one exists
and is non-empty, mirror the endpoint into `cr.Status.AtProvider` (`none`
models the nil-timestamp panic inside `generateVPCEndpointSDK`), map the
lifecycle state onto the readiness condition, and return `(obs, nil)`. -/
def postObserve (cr : VPCEndpointCR) (resp : DescribeVpcEndpointsOutput)
    (obs : ExternalObservation) (err : Option GoError) :
    Option (ExternalObservation × VPCEndpointCR × Option GoError) :=
  match err with
  | some msg => some ({ connectionDetails := [] }, cr, some msg)
  | none =>
    match resp.vpcEndpoints with
    | [] => none
    | e :: _ =>
      match generateVPCEndpointSDK e with
      | none => none
      | some sdk =>
        some
          ((match e.dnsEntries with
            | d :: _ =>
              if stringValue d.dnsName = "" then obs
              else { obs with connectionDetails :=
                       [(resourceCredentialsSecretEndpointKey, stringValue d.dnsName)] }
            | [] => obs),
           (if stringValue e.state = "available" then
              { cr with statusAtProvider := some sdk,
                        statusCondition := some ConditionType.available }
            else if stringValue e.state = "pending" ∨ stringValue e.state = "pending-acceptance" then
              { cr with statusAtProvider := some sdk,
                        statusCondition := some ConditionType.creating }
            else if stringValue e.state = "deleted" then
              { cr with statusAtProvider := some sdk,
                        statusCondition := some ConditionType.unavailable }
            else if stringValue e.state = "deleting" then
              { cr with statusAtProvider := some sdk,
                        statusCondition := some ConditionType.deleting }
            else { cr with statusAtProvider := some sdk }),
           none)

/-- The loop body of `filterList`: keep the first endpoint whose identifier
equals the connection identifier and stop there (`break`). -/
def filterLoop (connectionIdentifier : Option String) : List VpcEndpoint → List VpcEndpoint
  | [] => []
  | v :: rest =>
    if stringValue v.vpcEndpointId == stringValue connectionIdentifier then [v]
    else filterLoop connectionIdentifier rest

/-- `filterList(cr, obj)`: narrow a describe response to the first endpoint
whose identifier equals the resource's external name. -/
def filterList (cr : VPCEndpointCR) (obj : DescribeVpcEndpointsOutput) :
    DescribeVpcEndpointsOutput :=
  { vpcEndpoints := filterLoop (some (getExternalName cr)) obj.vpcEndpoints }

/-! ## Concrete instances used to exercise the definitions -/

/-- A resource declaring subnet `subnet-1` and no policy document. -/
def crNoPolicySubnetMismatch : VPCEndpointCR :=
  { forProvider := { subnetIDs := [some ("subnet-1")] } }

/-- An observed endpoint on `subnet-2` whose policy is a strict superset of
the default policy (an extra `Version` member), written with different
whitespace than the default literal. -/
def epSupersetPolicy : VpcEndpoint :=
  { subnetIds := [some ("subnet-2")],
    policyDocument :=
      some ("\x7b\"Statement\":[\x7b\"Action\":\"*\",\"Effect\":\"Allow\",\"Principal\":\"*\",\"Resource\":\"*\"\x7d],\"Version\":\"2008-10-17\"\x7d") }

/-- A resource declaring nothing: empty identifier lists, no policy. -/
def crNoPolicyListsMatch : VPCEndpointCR := {}

/-- An observed endpoint with empty identifier lists whose policy is a
strict superset of the default policy, textually different from it. -/
def epSupersetPolicyOnly : VpcEndpoint :=
  { policyDocument :=
      some ("\x7b\"Statement\":[\x7b\"Action\":\"*\",\"Effect\":\"Allow\",\"Principal\":\"*\",\"Resource\":\"*\"\x7d],\"Version\":\"2008-10-17\"\x7d") }

/-- A resource declaring a policy document with two members. -/
def crDeclaredPolicy : VPCEndpointCR :=
  { forProvider :=
      { policyDocument := some ("\x7b\"Statement\":[],\"Version\":\"2012-10-17\"\x7d") } }

/-- The declared policy of `crDeclaredPolicy` with its keys reordered and
extra whitespace: structurally the same JSON document. -/
def epReorderedPolicy : VpcEndpoint :=
  { policyDocument :=
      some ("\x7b \"Version\" : \"2012-10-17\" , \"Statement\" : [] \x7d") }

/-- A strict superset of the policy of `crDeclaredPolicy` (extra `Id`). -/
def epStrictSupersetPolicy : VpcEndpoint :=
  { policyDocument :=
      some ("\x7b\"Id\":\"p1\",\"Statement\":[],\"Version\":\"2012-10-17\"\x7d") }

/-- An observed endpoint whose policy document is not valid JSON. -/
def epMalformedPolicy : VpcEndpoint :=
  { policyDocument := some ("not json") }

/-- An observed endpoint in state `pending-acceptance`. -/
def epPendingAcceptance : VpcEndpoint :=
  { creationTimestamp := some 0, state := some ("pending-acceptance") }

/-- An observed endpoint carrying one DNS entry with a non-empty name. -/
def epWithDNS : VpcEndpoint :=
  { creationTimestamp := some 0,
    dnsEntries := [{ dnsName := some ("vpce-123.example.com") }] }

/-! ## Helper lemmas -/

/-- Characterisation of `listCompareStringPtrIsSame`: equal lengths and
every value of the first list occurring in the second. -/
theorem listCompare_true_iff (A B : List (Option String)) :
    listCompareStringPtrIsSame A B = true ↔
      (A.length = B.length ∧ ∀ a ∈ A, ∃ b ∈ B, stringValue a = stringValue b) := by
  unfold listCompareStringPtrIsSame
  by_cases h : A.length = B.length
  · simp [h, List.all_eq_true, List.any_eq_true]
  · simp [h]

/-- `filterLoop` keeps exactly the first match, as `List.find?` does. -/
theorem filterLoop_eq_find (cid : Option String) (l : List VpcEndpoint) :
    filterLoop cid l =
      (l.find? fun v => stringValue v.vpcEndpointId == stringValue cid).toList := by
  induction l with
  | nil => rfl
  | cons v rest ih =>
    unfold filterLoop
    by_cases h : (stringValue v.vpcEndpointId == stringValue cid) = true
    · simp [h, List.find?_cons]
    · have h2 : (stringValue v.vpcEndpointId == stringValue cid) = false := by
        simpa using h
      simp [h2, List.find?_cons, ih]

/-- When the first document fails to decode, the verdict is an
invalid-json outcome, never a (full or superset) match. -/
theorem jsondiffCompare_left_invalid (a b : String) (h : parseJson a = none) :
    (jsondiffCompare a b == Difference.fullMatch
      || jsondiffCompare a b == Difference.supersetMatch) = false := by
  unfold jsondiffCompare
  rw [h]
  cases parseJson b <;> rfl

/-- When the first document fails to decode, the verdict is not a full
match. -/
theorem jsondiffCompare_left_invalid_full (a b : String) (h : parseJson a = none) :
    (jsondiffCompare a b == Difference.fullMatch) = false := by
  unfold jsondiffCompare
  rw [h]
  cases parseJson b <;> rfl

/-- When the second document fails to decode, the verdict is not a full
match. -/
theorem jsondiffCompare_right_invalid_full (a b : String) (h : parseJson b = none) :
    (jsondiffCompare a b == Difference.fullMatch) = false := by
  unfold jsondiffCompare
  rw [h]
  cases parseJson a <;> rfl

/-! ## Claim theorems -/

/-- Claim C1, counterexample: `listCompareStringPtrIsSame` judges
`["a","a"]` and `["a","b"]` equal although the value `"b"` occurs in the
second list and nowhere in the first (and the two lists are neither equal
as multisets nor of different cardinality), so "containing an element of
one list absent from the other makes the check judge them unequal" is
false as stated. -/
theorem listCompare_counterexample :
    listCompareStringPtrIsSame [some ("a"), some ("a")] [some ("a"), some ("b")] = true
    ∧ some ("b") ∈ [some ("a"), some ("b")]
    ∧ (∀ x ∈ [some ("a"), some ("a")], stringValue x ≠ "b") := by
  decide

/-- Claim C1 (amended): lists whose element values form equal multisets
are judged equal; lists of different cardinality are judged unequal; a
value of the first (observed) list absent from the second (declared) list
makes the check judge them unequal; under the source's documented
uniqueness assumption (here: the first list's values are pairwise
distinct), a value of the second list absent from the first also makes it
judge them unequal; and a failing subnet or route-table check makes
`isUpToDate` return `(false, nil)`. -/
theorem listCompare_setEquality :
    (∀ A B : List (Option String), (A.map stringValue).Perm (B.map stringValue) →
      listCompareStringPtrIsSame A B = true)
    ∧ (∀ A B : List (Option String), A.length ≠ B.length →
      listCompareStringPtrIsSame A B = false)
    ∧ (∀ (A B : List (Option String)) (a : Option String), a ∈ A →
      (∀ b ∈ B, stringValue b ≠ stringValue a) →
      listCompareStringPtrIsSame A B = false)
    ∧ (∀ (A B : List (Option String)) (b : Option String), (A.map stringValue).Nodup →
      b ∈ B → stringValue b ∉ A.map stringValue →
      listCompareStringPtrIsSame A B = false)
    ∧ (∀ (cr : VPCEndpointCR) (e : VpcEndpoint) (rest : List VpcEndpoint),
      listCompareStringPtrIsSame e.subnetIds cr.forProvider.subnetIDs = false →
      isUpToDate cr { vpcEndpoints := e :: rest } = some (false, none))
    ∧ (∀ (cr : VPCEndpointCR) (e : VpcEndpoint) (rest : List VpcEndpoint),
      listCompareStringPtrIsSame e.subnetIds cr.forProvider.subnetIDs = true →
      listCompareStringPtrIsSame e.routeTableIds cr.forProvider.routeTableIDs = false →
      isUpToDate cr { vpcEndpoints := e :: rest } = some (false, none)) := by
  refine ⟨?_, ?_, ?_, ?_, ?_, ?_⟩
  · intro A B hperm
    refine (listCompare_true_iff A B).mpr ⟨?_, ?_⟩
    · have h := hperm.length_eq
      simpa using h
    · intro a ha
      have hmem : stringValue a ∈ B.map stringValue :=
        hperm.mem_iff.mp (List.mem_map_of_mem _ ha)
      obtain ⟨b, hb, he⟩ := List.mem_map.mp hmem
      exact ⟨b, hb, he.symm⟩
  · intro A B h
    simp [listCompareStringPtrIsSame, h]
  · intro A B a ha hnone
    cases hc : listCompareStringPtrIsSame A B with
    | false => rfl
    | true =>
      exfalso
      obtain ⟨-, hall⟩ := (listCompare_true_iff A B).mp hc
      obtain ⟨b, hb, he⟩ := hall a ha
      exact hnone b hb he.symm
  · intro A B b hnd hb hnotin
    cases hc : listCompareStringPtrIsSame A B with
    | false => rfl
    | true =>
      exfalso
      obtain ⟨hlen, hall⟩ := (listCompare_true_iff A B).mp hc
      have hsub : (A.map stringValue).toFinset ⊆ (B.map stringValue).toFinset := by
        intro x hx
        rw [List.mem_toFinset] at hx ⊢
        obtain ⟨a, ha, rfl⟩ := List.mem_map.mp hx
        obtain ⟨b2, hb2, he⟩ := hall a ha
        exact List.mem_map.mpr ⟨b2, hb2, he.symm⟩
      have heq : (A.map stringValue).toFinset = (B.map stringValue).toFinset := by
        refine Finset.eq_of_subset_of_card_le hsub ?_
        calc (B.map stringValue).toFinset.card ≤ (B.map stringValue).length :=
              List.toFinset_card_le _
          _ = (A.map stringValue).length := by simp [hlen]
          _ = (A.map stringValue).toFinset.card := (List.toFinset_card_of_nodup hnd).symm
      have hmem : stringValue b ∈ (A.map stringValue).toFinset := by
        rw [heq, List.mem_toFinset]
        exact List.mem_map_of_mem _ hb
      exact hnotin (List.mem_toFinset.mp hmem)
  · intro cr e rest h
    simp [isUpToDate, h]
  · intro cr e rest h1 h2
    simp [isUpToDate, h1, h2]

/-- Claim C1, witness: order-insensitive equality on a concrete pair, a
cardinality mismatch, and a subnet mismatch propagating to `isUpToDate`. -/
theorem listCompare_setEquality_witness :
    listCompareStringPtrIsSame [some ("subnet-1"), some ("subnet-2")]
        [some ("subnet-2"), some ("subnet-1")] = true
    ∧ listCompareStringPtrIsSame [some ("subnet-1")] [] = false
    ∧ isUpToDate { forProvider := { subnetIDs := [] } }
        { vpcEndpoints := [{ subnetIds := [some ("subnet-1")] }] } = some (false, none) := by
  refine ⟨?_, ?_, ?_⟩
  · exact listCompare_setEquality.1 _ _ (by decide)
  · exact listCompare_setEquality.2.1 _ _ (by decide)
  · exact listCompare_setEquality.2.2.2.2.1 _ _ _ (by decide)

/-- Claim C7: `postCreate` with a non-nil incoming error, or with a nil
created-resource payload, leaves the resource untouched (no external-name
assignment, `ExternalNameAssigned` not set) and returns the incoming error
unchanged; only with a nil error and a non-nil payload does it assign the
remote identifier as the external name and mark the assignment. -/
theorem postCreate_spec :
    (∀ (cr : VPCEndpointCR) (obj : CreateVpcEndpointOutput) (cre : ExternalCreation)
        (msg : GoError),
      postCreate cr obj cre (some msg) = ({ externalNameAssigned := false }, cr, some msg))
    ∧ (∀ (cr : VPCEndpointCR) (cre : ExternalCreation),
      postCreate cr { vpcEndpoint := none } cre none =
        ({ externalNameAssigned := false }, cr, none))
    ∧ (∀ (cr : VPCEndpointCR) (cre : ExternalCreation) (v : VpcEndpoint),
      postCreate cr { vpcEndpoint := some v } cre none =
        ({ cre with externalNameAssigned := true },
         setExternalName cr (stringValue v.vpcEndpointId), none)) :=
  ⟨fun _ _ _ _ => rfl, fun _ _ => rfl, fun _ _ _ => rfl⟩

/-- Claim C8: `filterList` returns exactly the first element of the
describe response whose identifier equals the assigned external name
(`List.find?` semantics), hence an empty response when nothing matches,
and never more than one element. -/
theorem filterList_spec (cr : VPCEndpointCR) (obj : DescribeVpcEndpointsOutput) :
    (filterList cr obj).vpcEndpoints =
      (obj.vpcEndpoints.find? fun v =>
        stringValue v.vpcEndpointId == getExternalName cr).toList
    ∧ (filterList cr obj).vpcEndpoints.length ≤ 1 := by
  have h : (filterList cr obj).vpcEndpoints =
      (obj.vpcEndpoints.find? fun v =>
        stringValue v.vpcEndpointId == getExternalName cr).toList := by
    simpa [filterList, stringValue] using
      filterLoop_eq_find (some (getExternalName cr)) obj.vpcEndpoints
  refine ⟨h, ?_⟩
  rw [h]
  cases obj.vpcEndpoints.find? fun v => stringValue v.vpcEndpointId == getExternalName cr <;>
    simp

/-- Claim C9: `preCreate` nils out each of the three request lists exactly
when the corresponding declared list is empty, appends one tag
specification with a `Name` tag holding the external name, and returns a
nil error. -/
theorem preCreate_spec (cr : VPCEndpointCR) (obj : CreateVpcEndpointInput) :
    preCreate cr obj =
      ({ securityGroupIds :=
           if cr.forProvider.securityGroupIDs.length = 0 then none else obj.securityGroupIds,
         routeTableIds :=
           if cr.forProvider.routeTableIDs.length = 0 then none else obj.routeTableIds,
         subnetIds :=
           if cr.forProvider.subnetIDs.length = 0 then none else obj.subnetIds,
         tagSpecifications := obj.tagSpecifications ++
           [{ resourceType := some ("vpc-endpoint"),
              tags := [{ key := some ("Name"), value := some (getExternalName cr) }] }] },
       none) := by
  unfold preCreate
  split_ifs <;> rfl

/-- Claim C10 (implicit): with a nil incoming error, `postObserve` reads
the first element of the describe response unconditionally; on an empty
response it is undefined (the index panic, modelled as `none`), whereas
with a non-nil incoming error the empty response is never touched. -/
theorem postObserve_emptyResponse :
    (∀ (cr : VPCEndpointCR) (obs : ExternalObservation),
      postObserve cr { vpcEndpoints := [] } obs none = none)
    ∧ (∀ (cr : VPCEndpointCR) (obs : ExternalObservation) (msg : GoError),
      postObserve cr { vpcEndpoints := [] } obs (some msg) =
        some ({ connectionDetails := [] }, cr, some msg)) :=
  ⟨fun _ _ => rfl, fun _ _ _ => rfl⟩

/-- Claim C2, counterexample: with no declared policy, an observed policy
that is a superset match of the default does not make `isUpToDate` return
true when the subnet check fails, refuting the unconditional "if and only
if" of the claim. -/
theorem isUpToDate_defaultPolicy_counterexample :
    stringValue crNoPolicySubnetMismatch.forProvider.policyDocument = ""
    ∧ jsondiffCompare (stringValue epSupersetPolicy.policyDocument) defaultVPCEndpointPolicy
        = Difference.supersetMatch
    ∧ isUpToDate crNoPolicySubnetMismatch { vpcEndpoints := [epSupersetPolicy] }
        = some (false, none) := by
  refine ⟨rfl, ?_, ?_⟩ <;> decide

/-- Claim C2 (amended): when no policy document is declared and the
subnet, route-table and security-group checks pass, `isUpToDate` returns
true exactly when `jsondiff` reports the observed policy as a full or
superset match of the implicit default policy, with a nil error. -/
theorem isUpToDate_defaultPolicy (cr : VPCEndpointCR) (e : VpcEndpoint)
    (rest : List VpcEndpoint)
    (hsub : listCompareStringPtrIsSame e.subnetIds cr.forProvider.subnetIDs = true)
    (hrt : listCompareStringPtrIsSame e.routeTableIds cr.forProvider.routeTableIDs = true)
    (hsgLen : e.groups.length = cr.forProvider.securityGroupIDs.length)
    (hsg : (cr.forProvider.securityGroupIDs.all fun declaredSG =>
        e.groups.any fun upstreamSG =>
          stringValue declaredSG == stringValue upstreamSG.groupId) = true)
    (hpol : stringValue cr.forProvider.policyDocument = "") :
    isUpToDate cr { vpcEndpoints := e :: rest } =
      some ((jsondiffCompare (stringValue e.policyDocument) defaultVPCEndpointPolicy
               == Difference.fullMatch
             || jsondiffCompare (stringValue e.policyDocument) defaultVPCEndpointPolicy
               == Difference.supersetMatch), none) := by
  simp [isUpToDate, hsub, hrt, hsgLen, hsg, hpol]

/-- Claim C2, witness: no declared policy, all list checks passing, and an
observed policy textually different from the default but a semantic
superset of it: the verdict is a match. -/
theorem isUpToDate_defaultPolicy_witness :
    isUpToDate crNoPolicyListsMatch { vpcEndpoints := [epSupersetPolicyOnly] }
      = some (true, none) := by
  have h := isUpToDate_defaultPolicy crNoPolicyListsMatch epSupersetPolicyOnly []
    rfl rfl rfl rfl rfl
  rw [h]
  decide

/-- Claim C3: when a non-empty policy document is declared and the list
checks pass, `isUpToDate` returns true exactly when `jsondiff` reports a
full (structural) match of the observed policy against the declared one —
a strict superset is not a match — and the verdict only depends on the
decoded documents, so key order and whitespace are irrelevant. -/
theorem isUpToDate_declaredPolicy :
    (∀ (cr : VPCEndpointCR) (e : VpcEndpoint) (rest : List VpcEndpoint),
      listCompareStringPtrIsSame e.subnetIds cr.forProvider.subnetIDs = true →
      listCompareStringPtrIsSame e.routeTableIds cr.forProvider.routeTableIDs = true →
      e.groups.length = cr.forProvider.securityGroupIDs.length →
      (cr.forProvider.securityGroupIDs.all fun declaredSG =>
        e.groups.any fun upstreamSG =>
          stringValue declaredSG == stringValue upstreamSG.groupId) = true →
      stringValue cr.forProvider.policyDocument ≠ "" →
      isUpToDate cr { vpcEndpoints := e :: rest } =
        some ((jsondiffCompare (stringValue e.policyDocument)
                 (stringValue cr.forProvider.policyDocument) == Difference.fullMatch), none))
    ∧ (∀ s1 s2 t : String, parseJson s1 = parseJson s2 →
      jsondiffCompare s1 t = jsondiffCompare s2 t)
    ∧ (∀ t s1 s2 : String, parseJson s1 = parseJson s2 →
      jsondiffCompare t s1 = jsondiffCompare t s2) := by
  refine ⟨?_, ?_, ?_⟩
  · intro cr e rest hsub hrt hsgLen hsg hpol
    simp [isUpToDate, hsub, hrt, hsgLen, hsg, hpol]
  · intro s1 s2 t h
    unfold jsondiffCompare
    rw [h]
  · intro t s1 s2 h
    unfold jsondiffCompare
    rw [h]

/-- Claim C3, witness: against the declared two-member policy, an observed
document with reordered keys and different whitespace is a match, while a
strict structural superset is not. -/
theorem isUpToDate_declaredPolicy_witness :
    isUpToDate crDeclaredPolicy { vpcEndpoints := [epReorderedPolicy] } = some (true, none)
    ∧ isUpToDate crDeclaredPolicy { vpcEndpoints := [epStrictSupersetPolicy] }
        = some (false, none) := by
  have h1 := isUpToDate_declaredPolicy.1 crDeclaredPolicy epReorderedPolicy []
    rfl rfl rfl rfl (by decide)
  have h2 := isUpToDate_declaredPolicy.1 crDeclaredPolicy epStrictSupersetPolicy []
    rfl rfl rfl rfl (by decide)
  rw [h1, h2]
  exact ⟨by decide, by decide⟩

/-- Claim C4: whenever `isUpToDate` returns (any non-empty describe
response), its error component is nil; in particular a malformed
(non-decodable) policy document on either side — observed, or declared
non-empty — yields the verdict false with a nil error, not an error. -/
theorem isUpToDate_nilError :
    (∀ (cr : VPCEndpointCR) (e : VpcEndpoint) (rest : List VpcEndpoint),
      ∃ verdict : Bool,
        isUpToDate cr { vpcEndpoints := e :: rest } = some (verdict, none))
    ∧ (∀ (cr : VPCEndpointCR) (e : VpcEndpoint) (rest : List VpcEndpoint),
      listCompareStringPtrIsSame e.subnetIds cr.forProvider.subnetIDs = true →
      listCompareStringPtrIsSame e.routeTableIds cr.forProvider.routeTableIDs = true →
      e.groups.length = cr.forProvider.securityGroupIDs.length →
      (cr.forProvider.securityGroupIDs.all fun declaredSG =>
        e.groups.any fun upstreamSG =>
          stringValue declaredSG == stringValue upstreamSG.groupId) = true →
      parseJson (stringValue e.policyDocument) = none →
      isUpToDate cr { vpcEndpoints := e :: rest } = some (false, none))
    ∧ (∀ (cr : VPCEndpointCR) (e : VpcEndpoint) (rest : List VpcEndpoint),
      listCompareStringPtrIsSame e.subnetIds cr.forProvider.subnetIDs = true →
      listCompareStringPtrIsSame e.routeTableIds cr.forProvider.routeTableIDs = true →
      e.groups.length = cr.forProvider.securityGroupIDs.length →
      (cr.forProvider.securityGroupIDs.all fun declaredSG =>
        e.groups.any fun upstreamSG =>
          stringValue declaredSG == stringValue upstreamSG.groupId) = true →
      stringValue cr.forProvider.policyDocument ≠ "" →
      parseJson (stringValue cr.forProvider.policyDocument) = none →
      isUpToDate cr { vpcEndpoints := e :: rest } = some (false, none)) := by
  refine ⟨?_, ?_, ?_⟩
  · intro cr e rest
    simp only [isUpToDate]
    split_ifs <;> exact ⟨_, rfl⟩
  · intro cr e rest hsub hrt hsgLen hsg hparse
    by_cases hdp : stringValue cr.forProvider.policyDocument = ""
    · simp [isUpToDate, hsub, hrt, hsgLen, hsg, hdp,
        jsondiffCompare_left_invalid _ _ hparse]
    · simp [isUpToDate, hsub, hrt, hsgLen, hsg, hdp,
        jsondiffCompare_left_invalid_full _ _ hparse]
  · intro cr e rest hsub hrt hsgLen hsg hdp hparse
    simp [isUpToDate, hsub, hrt, hsgLen, hsg, hdp,
      jsondiffCompare_right_invalid_full _ _ hparse]

/-- Claim C4, witness: a non-JSON observed policy under an empty declared
spec yields the mismatch verdict with a nil error. -/
theorem isUpToDate_nilError_witness :
    isUpToDate {} { vpcEndpoints := [epMalformedPolicy] } = some (false, none) :=
  isUpToDate_nilError.2.1 {} epMalformedPolicy [] rfl rfl rfl rfl rfl

/-- Claim C5: on a successful observation (nil error, endpoint present
with a creation timestamp), `postObserve` maps the lifecycle state to the
readiness condition as a total function — `available` to Available,
`pending` and `pending-acceptance` to Creating, `deleted` to Unavailable,
`deleting` to Deleting, anything else leaving the prior condition
untouched — and returns a nil error. -/
theorem postObserve_stateMapping (cr : VPCEndpointCR) (obs : ExternalObservation)
    (e : VpcEndpoint) (rest : List VpcEndpoint) (ts : Nat)
    (hts : e.creationTimestamp = some ts) :
    (postObserve cr { vpcEndpoints := e :: rest } obs none).map
        (fun r => (r.2.1.statusCondition, r.2.2)) =
      some ((if stringValue e.state = "available" then some ConditionType.available
             else if stringValue e.state = "pending"
                 ∨ stringValue e.state = "pending-acceptance" then
               some ConditionType.creating
             else if stringValue e.state = "deleted" then some ConditionType.unavailable
             else if stringValue e.state = "deleting" then some ConditionType.deleting
             else cr.statusCondition), none) := by
  simp only [postObserve, generateVPCEndpointSDK, hts]
  split_ifs <;> simp

/-- Claim C5, witness: state `pending-acceptance` yields condition
Creating with a nil error. -/
theorem postObserve_stateMapping_witness :
    (postObserve {} { vpcEndpoints := [epPendingAcceptance] } {} none).map
        (fun r => (r.2.1.statusCondition, r.2.2)) =
      some (some ConditionType.creating, none) := by
  have h := postObserve_stateMapping {} {} epPendingAcceptance [] 0 rfl
  rw [h]
  decide

/-- Claim C6: on a successful observation (nil error, endpoint present
with a creation timestamp) starting from empty connection details, the
returned observation's connection details hold the fixed endpoint key
mapped to the first DNS entry's name exactly when a first DNS entry exists
and its name is non-empty, and are empty otherwise; the returned error is
nil either way. -/
theorem postObserve_connectionDetails (cr : VPCEndpointCR) (obs : ExternalObservation)
    (e : VpcEndpoint) (rest : List VpcEndpoint) (ts : Nat)
    (hts : e.creationTimestamp = some ts) (hobs : obs.connectionDetails = []) :
    (postObserve cr { vpcEndpoints := e :: rest } obs none).map
        (fun r => (r.1.connectionDetails, r.2.2)) =
      some ((match e.dnsEntries with
             | d :: _ =>
               if stringValue d.dnsName = "" then []
               else [(resourceCredentialsSecretEndpointKey, stringValue d.dnsName)]
             | [] => []), none) := by
  simp only [postObserve, generateVPCEndpointSDK, hts]
  rcases hdns : e.dnsEntries with _ | ⟨d, ds⟩
  · simp [hobs]
  · by_cases h : stringValue d.dnsName = ""
    · simp [h, hobs]
    · simp [h]

/-- Claim C6, witness: one DNS entry with a non-empty name populates the
endpoint connection detail. -/
theorem postObserve_connectionDetails_witness :
    (postObserve {} { vpcEndpoints := [epWithDNS] } {} none).map
        (fun r => (r.1.connectionDetails, r.2.2)) =
      some ([(resourceCredentialsSecretEndpointKey, "vpce-123.example.com")], none) := by
  have h := postObserve_connectionDetails {} {} epWithDNS [] 0 rfl rfl
  rw [h]
  decide

end ProviderAWS
